import Mathlib

/-!
# Verification of the `transfer-progress` crate (`src/lib.rs`)

Shallow embedding of the concurrent transfer monitor:

* `TransferState` mirrors the shared `TransferState` struct (an `AtomicU64`
  byte counter and an `AtomicBool` completion flag); atomics are modelled by
  plain fields, with the worker's updates made explicit as a list of events
  (`WEvent`) applied in program order.  Weak-memory visibility itself is out
  of scope of this embedding.
* `Transfer` mirrors the `Transfer<R, W>` handle: the elapsed wall-clock time
  since `start_time` is a parameter of the state (`elapsedNanos`, the value
  `running_time()` observes, in nanoseconds), and the `JoinHandle` outcome is
  a `WorkerExit` value (normal return with an `io::Result`, or a panic).
* `SizedTransfer` mirrors `SizedTransfer<R, W>` (inner handle plus declared
  `size`).
* `u64` values are `Nat` with explicit `% 2^64` wrapping where the source's
  arithmetic can overflow (`remaining`, `fetch_add`); `f64` values are the
  inductive `F64`, which keeps the IEEE special values (`inf`, `nan`) exact
  and idealises finite arithmetic as exact rational arithmetic (adequate
  here: every claim about floats turns on the special values and the
  saturating casts, not on rounding error).  All float operands arising in
  this crate are non-negative, so only the non-negative special-value cases
  are modelled.
-/

/-- The model of an `f64` as it is used in this crate: a finite value
(idealised as an exact rational), positive infinity, or NaN.  Every float
appearing in the crate is non-negative, so negative infinity is not needed. -/
inductive F64
  | finite (q : ℚ)
  | inf
  | nan
deriving DecidableEq

namespace F64

/-- IEEE `f64` division restricted to non-negative operands:
`0.0 / 0.0 = NaN`, `x / 0.0 = +Inf` for `x > 0`, `x / +Inf = 0.0`,
`+Inf / x = +Inf`, NaN propagates; finite division is exact. -/
def div : F64 → F64 → F64
  | finite a, finite b => if b = 0 then (if a = 0 then nan else inf) else finite (a / b)
  | finite _, inf => finite 0
  | inf, finite _ => inf
  | inf, inf => nan
  | nan, _ => nan
  | _, nan => nan

/-- IEEE `f64` multiplication restricted to non-negative operands:
`0.0 * +Inf = NaN`, otherwise infinity is absorbing; NaN propagates;
finite multiplication is exact (finite overflow to infinity is not modelled:
all products in this crate are far below the `f64` maximum). -/
def mul : F64 → F64 → F64
  | finite a, finite b => finite (a * b)
  | finite a, inf => if a = 0 then nan else inf
  | inf, finite b => if b = 0 then nan else inf
  | inf, inf => inf
  | nan, _ => nan
  | _, nan => nan

end F64

/-- Rounding half up on ℚ: on the non-negative values arising in this crate
this agrees with Rust's round-half-away-from-zero. -/
def roundQ (q : ℚ) : ℤ := ⌊q + 1 / 2⌋

/-- Rust's `f64::round`: `round(+Inf) = +Inf`, `round(NaN) = NaN`, finite
values round half away from zero (here: half up, all values
non-negative). -/
def F64.round : F64 → F64
  | F64.finite q => F64.finite (roundQ q : ℤ)
  | F64.inf => F64.inf
  | F64.nan => F64.nan

/-- `2^64 - 1`, the largest `u64` value. -/
def u64MAX : ℕ := 2 ^ 64 - 1

/-- Rust's saturating float-to-integer cast `as u64` (stable semantics):
NaN casts to 0, values at or below 0 cast to 0, `+Inf` and values at or
above `2^64` cast to `u64::MAX`; otherwise the value is truncated toward
zero. -/
def F64.toU64 : F64 → ℕ
  | F64.nan => 0
  | F64.inf => u64MAX
  | F64.finite q => if q ≤ 0 then 0 else min (⌊q⌋.toNat) u64MAX

/-- `Duration::as_secs_f64` applied to a duration of `nanos` nanoseconds:
the exact number of seconds as a finite float. -/
def asSecsF64 (nanos : ℕ) : F64 :=
  F64.finite ((nanos : ℚ) / 1000000000)

/-- `Duration::from_secs_f64`: panics (modelled as `none`) when the input is
NaN, infinite, negative, or overflows `Duration` — whole seconds are a
`u64`, so any value of `2^64` seconds or more panics; otherwise builds the
duration, modelled as its exact value in seconds. -/
def fromSecsF64 : F64 → Option ℚ
  | F64.finite q => if 0 ≤ q ∧ q < 2 ^ 64 then some q else none
  | F64.inf => none
  | F64.nan => none

/-- `u64` subtraction `a - b` as the source performs it: wrapping modulo
`2^64` (the behaviour with overflow checks off; with checks on the same
underflow panics — either way it does not saturate).  Faithful for
`a b < 2^64`. -/
def sub64 (a b : ℕ) : ℕ := (a + 2 ^ 64 - b) % 2 ^ 64

/-- A model of `std::io::Error`: an opaque payload distinguishing errors. -/
structure IoError where
  code : ℕ
deriving DecidableEq

/-- The outcome held by the worker's `JoinHandle<io::Result<(R, W)>>`:
either the thread returned normally with an `io::Result`, or it panicked
(so `join()` yields `Err` and the `unwrap()` in `finish` propagates the
panic). `α` stands for the recovered `(R, W)` pair. -/
inductive WorkerExit (α : Type)
  | normal (r : Except IoError α)
  | panicked

/-- Mirror of the shared `TransferState` struct: `transferred: AtomicU64`,
`complete: AtomicBool`.  `transferred` holds a `u64` value (`< 2^64`). -/
structure TransferState where
  transferred : ℕ
  complete : Bool
deriving DecidableEq

/-- `TransferState::default()`: counter 0, flag false. -/
def initState : TransferState := { transferred := 0, complete := false }

/-- The worker's updates to the shared state, in program order: the
`ProgressReader` callback `fetch_add(bytes as u64, Release)` once per chunk,
and the single `complete.store(true, Release)` after `io::copy` returns. -/
inductive WEvent
  | publish (bytes : ℕ)
  | markComplete
deriving DecidableEq

/-- Applying one worker update to the shared state.  `fetch_add` on an
`AtomicU64` wraps modulo `2^64`; the `bytes as u64` cast is lossless
(`bytes` is the chunk size in `usize`). -/
def applyEvent (s : TransferState) : WEvent → TransferState
  | WEvent.publish b => { s with transferred := (s.transferred + b) % 2 ^ 64 }
  | WEvent.markComplete => { s with complete := true }

/-- The shared state after a sequence of worker updates. -/
def runEvents (s : TransferState) (es : List WEvent) : TransferState :=
  es.foldl applyEvent s

/-- The net delta an update applies to the counter (modulo wrapping). -/
def eventDelta : WEvent → ℕ
  | WEvent.publish b => b
  | WEvent.markComplete => 0

/-- The full sequence of shared-state updates the worker closure performs
when `io::copy` moves chunks of sizes `chunks`: one `publish` per chunk
(from the `ProgressReader` callback), then exactly one `markComplete`
(the unconditional `complete.store(true)` after `io::copy` returns). -/
def workerEvents (chunks : List ℕ) : List WEvent :=
  chunks.map WEvent.publish ++ [WEvent.markComplete]

/-- Every intermediate shared state an observer could read while the worker
applies `es` starting from `s` (the state before any update, and after each
update). -/
def statesAlong (s : TransferState) : List WEvent → List TransferState
  | [] => [s]
  | e :: es => s :: statesAlong (applyEvent s e) es

/-- The worker closure's overall effect, given the chunk sizes `io::copy`
reports and its result `copyRes : io::Result<u64>`: the final shared state,
and the value the thread returns — `res.map(|_| (reader.into_inner(),
writer))`, i.e. the `u64` byte total replaced by the recovered pair. -/
def runWorker {α : Type} (chunks : List ℕ) (copyRes : Except IoError ℕ)
    (pair : α) : TransferState × Except IoError α :=
  (runEvents initState (workerEvents chunks), copyRes.map fun _ => pair)

/-- Mirror of the `Transfer<R, W>` handle.  `elapsedNanos` is the wall-clock
time since `start_time` that `running_time()` observes, in nanoseconds;
`state` is the shared `Arc<TransferState>` contents at the moment of the
query; `exit` is the worker thread's outcome held by the `JoinHandle`.
`α` stands for the `(R, W)` pair. -/
structure Transfer (α : Type) where
  elapsedNanos : ℕ
  state : TransferState
  exit : WorkerExit α

namespace Transfer

/-- `Transfer::is_complete`: `self.state.complete.load(Acquire)`. -/
def is_complete {α : Type} (t : Transfer α) : Bool := t.state.complete

/-- `Transfer::transferred`: `self.state.transferred.load(Acquire)`. -/
def transferred {α : Type} (t : Transfer α) : ℕ := t.state.transferred

/-- `Transfer::running_time`: `self.start_time.elapsed()`, the elapsed
duration in nanoseconds. -/
def running_time {α : Type} (t : Transfer α) : ℕ := t.elapsedNanos

/-- `Transfer::speed`:
`(self.transferred() as f64 / self.running_time().as_secs_f64()).round() as u64`. -/
def speed {α : Type} (t : Transfer α) : ℕ :=
  (F64.div (F64.finite (t.transferred : ℚ)) (asSecsF64 t.running_time)).round.toU64

/-- `Transfer::finish`: `self.handle.join().unwrap()`.  A normal worker exit
yields its `io::Result`; a worker panic makes `join()` return `Err` and the
`unwrap()` re-panic in the caller, modelled as `none` (no value is ever
returned, the source and sink are lost, and the caller sees a panic). -/
def finish {α : Type} (t : Transfer α) : Option (Except IoError α) :=
  match t.exit with
  | WorkerExit.normal r => some r
  | WorkerExit.panicked => none

end Transfer

/-- Mirror of `SizedTransfer<R, W>`: the inner `Transfer` plus the declared
total `size: u64`. -/
structure SizedTransfer (α : Type) where
  inner : Transfer α
  size : ℕ

namespace SizedTransfer

/-- `Deref` pass-through of `transferred()` to the inner handle. -/
def transferred {α : Type} (t : SizedTransfer α) : ℕ := t.inner.transferred

/-- `Deref` pass-through of `is_complete()` to the inner handle. -/
def is_complete {α : Type} (t : SizedTransfer α) : Bool := t.inner.is_complete

/-- `Deref` pass-through of `running_time()` to the inner handle. -/
def running_time {α : Type} (t : SizedTransfer α) : ℕ := t.inner.running_time

/-- `SizedTransfer::remaining`: `self.size - self.inner.transferred()`,
a bare `u64` subtraction (wrapping; see `sub64`). -/
def remaining {α : Type} (t : SizedTransfer α) : ℕ :=
  sub64 t.size t.inner.transferred

/-- `SizedTransfer::finish`: delegates to `self.inner.finish()`. -/
def finish {α : Type} (t : SizedTransfer α) : Option (Except IoError α) :=
  t.inner.finish

/-- `SizedTransfer::fraction_transferred`:
`self.transferred() as f64 / self.size as f64`, an unguarded float
division. -/
def fraction_transferred {α : Type} (t : SizedTransfer α) : F64 :=
  F64.div (F64.finite (t.transferred : ℚ)) (F64.finite (t.size : ℚ))

/-- `SizedTransfer::eta`.  Returns `none` when `transferred == 0`; otherwise
computes `remaining = self.size - transferred` (the same bare `u64`
subtraction as `remaining()`), `elapsed = running_time().as_secs_f64()`,
`eta = (elapsed / transferred as f64) * remaining as f64`, and returns
`Some(Duration::from_secs_f64(eta))` — the inner `Option` records whether
`from_secs_f64` succeeds or panics. -/
def eta {α : Type} (t : SizedTransfer α) : Option (Option ℚ) :=
  let transferred := t.inner.transferred
  if transferred = 0 then none
  else
    let remaining := sub64 t.size transferred
    let elapsed := asSecsF64 t.inner.running_time
    some (fromSecsF64
      ((F64.div elapsed (F64.finite (transferred : ℚ))).mul
        (F64.finite (remaining : ℚ))))

end SizedTransfer

/-! ## Concrete handles used as evaluation points -/

/-- A handle observed with 1 byte transferred and zero elapsed time. -/
def tr1at0 : Transfer Unit :=
  { elapsedNanos := 0
    state := { transferred := 1, complete := false }
    exit := WorkerExit.normal (Except.ok ()) }

/-- The same observation, but on a transfer whose worker failed with an
I/O error. -/
def tr1at0err : Transfer Unit :=
  { elapsedNanos := 0
    state := { transferred := 1, complete := false }
    exit := WorkerExit.normal (Except.error ⟨5⟩) }

/-- A sized handle with declared size 0 and nothing transferred yet. -/
def sz0tr0 : SizedTransfer Unit :=
  { inner := { elapsedNanos := 0, state := initState
               exit := WorkerExit.normal (Except.ok ()) }
    size := 0 }

/-- A sized handle with declared size 0 and 1 byte transferred (the stream
exceeded the declared size). -/
def sz0tr1 : SizedTransfer Unit := { inner := tr1at0, size := 0 }

/-- A sized handle with declared size 1024 and 1 byte transferred. -/
def sz1024 : SizedTransfer Unit := { inner := tr1at0, size := 1024 }

/-- A sized handle with declared size `u64::MAX`, 1 byte transferred and
2 seconds elapsed: the extrapolated time to completion is about `2^65`
seconds, beyond `Duration`'s range. -/
def szMAX : SizedTransfer Unit :=
  { inner := { elapsedNanos := 2000000000
               state := { transferred := 1, complete := false }
               exit := WorkerExit.normal (Except.ok ()) }
    size := 2 ^ 64 - 1 }

/-! ## Shared helper lemmas -/

/-- When no underflow occurs, the wrapping `u64` subtraction is the
mathematical subtraction. -/
theorem sub64_of_le {a b : ℕ} (hba : b ≤ a) (ha : a < 2 ^ 64) :
    sub64 a b = a - b := by
  unfold sub64
  have h1 : a + 2 ^ 64 - b = (a - b) + 2 ^ 64 := by omega
  rw [h1, Nat.add_mod_right, Nat.mod_eq_of_lt (by omega)]

/-- When the subtraction underflows, the wrapping `u64` subtraction yields
`a + 2^64 - b`, which is never 0. -/
theorem sub64_of_lt {a b : ℕ} (hab : a < b) (hb : b < 2 ^ 64) :
    sub64 a b = a + 2 ^ 64 - b ∧ sub64 a b ≠ 0 := by
  unfold sub64
  rw [Nat.mod_eq_of_lt (by omega)]
  omega

/-- `remaining()` is literally the wrapping subtraction. -/
theorem remaining_def {α : Type} (t : SizedTransfer α) :
    t.remaining = sub64 t.size t.transferred := rfl

/-- Unfolding of `eta()` on the interesting branch: when `transferred ≠ 0`
the division and multiplication stay finite, so the value handed to
`Duration::from_secs_f64` is exactly
`elapsed_seconds / transferred * remaining()` (with `remaining()` the same
wrapping subtraction as the method) — whether `from_secs_f64` then returns
or panics depends on that value. -/
theorem eta_eq_of_transferred_ne_zero {α : Type} (t : SizedTransfer α)
    (h : t.transferred ≠ 0) :
    t.eta = some (fromSecsF64 (F64.finite (((t.running_time : ℚ) / 1000000000) /
      (t.transferred : ℚ) * ((t.remaining : ℕ) : ℚ)))) := by
  have hcast : (t.transferred : ℚ) ≠ 0 := Nat.cast_ne_zero.mpr h
  simp only [SizedTransfer.eta, SizedTransfer.transferred, SizedTransfer.running_time,
    remaining_def] at *
  rw [if_neg h]
  simp [asSecsF64, F64.div, F64.mul, hcast]

/-! ## Theorems -/

/-- Claim C1 is false as stated: with `running_time() = 0` and
`transferred() = 1`, `speed()` does not return 0 — the float division
produces `+Inf` and the saturating cast turns it into `u64::MAX`. -/
theorem C1_speed_zero_time_counterexample :
    tr1at0.running_time = 0 ∧ tr1at0.speed = 2 ^ 64 - 1 ∧ (2 ^ 64 - 1 : ℕ) ≠ 0 := by
  refine ⟨rfl, ?_, by norm_num⟩
  norm_num [Transfer.speed, Transfer.transferred, Transfer.running_time, asSecsF64,
    F64.div, F64.round, F64.toU64, u64MAX, tr1at0]

/-- Claim C1 amended: `speed()` never panics — the unguarded float division
is well-defined even at zero.  When `running_time()` is 0 it returns 0 only
if `transferred()` is also 0 (the `0.0 / 0.0` NaN casts to 0); if
`transferred() > 0` it returns `u64::MAX` (the `+Inf` saturates in the
`as u64` cast).  When `running_time() > 0` it returns
`round(transferred / running_time_in_seconds)` saturated into `u64`. -/
theorem C1_speed_amended {α : Type} (t : Transfer α) :
    (t.running_time = 0 →
      t.speed = if t.transferred = 0 then 0 else 2 ^ 64 - 1) ∧
    (t.running_time ≠ 0 →
      t.speed = (F64.finite ((t.transferred : ℚ) /
        ((t.running_time : ℚ) / 1000000000))).round.toU64) := by
  constructor
  · intro h
    rcases Nat.eq_zero_or_pos t.transferred with h0 | h0
    · simp [Transfer.speed, asSecsF64, F64.div, h, h0, F64.round, F64.toU64]
    · have hne : (t.transferred : ℚ) ≠ 0 := Nat.cast_ne_zero.mpr (by omega)
      have hne2 : t.transferred ≠ 0 := by omega
      simp [Transfer.speed, asSecsF64, F64.div, h, hne, hne2, F64.round, F64.toU64, u64MAX]
  · intro h
    have hsec : ((t.running_time : ℚ) / 1000000000) ≠ 0 :=
      div_ne_zero (Nat.cast_ne_zero.mpr h) (by norm_num)
    simp [Transfer.speed, asSecsF64, F64.div, hsec]

/-- Witness for `C1_speed_amended` at the concrete handle `tr1at0`
(elapsed time 0). -/
theorem C1_speed_amended_witness :
    tr1at0.speed = if tr1at0.transferred = 0 then 0 else 2 ^ 64 - 1 :=
  (C1_speed_amended tr1at0).1 rfl

/-- Claim C2 is false as stated: with declared size 0 and 1 byte
transferred, `remaining()` wraps to `2^64 - 1` instead of clamping to 0. -/
theorem C2_remaining_counterexample :
    sz0tr1.transferred > sz0tr1.size ∧ sz0tr1.remaining = 2 ^ 64 - 1 ∧
      (2 ^ 64 - 1 : ℕ) ≠ 0 := by
  refine ⟨by norm_num [sz0tr1, tr1at0, SizedTransfer.transferred, Transfer.transferred], ?_,
    by norm_num⟩
  norm_num [sz0tr1, tr1at0, SizedTransfer.remaining, Transfer.transferred, sub64]

/-- Claim C2 amended: `remaining()` equals `size - transferred()` when
`transferred() ≤ size`; when `transferred() > size` the bare `u64`
subtraction underflows and wraps modulo `2^64` (with overflow checks on it
panics instead) — the result `size + 2^64 - transferred` is never 0, so it
does not clamp to 0. -/
theorem C2_remaining_amended {α : Type} (t : SizedTransfer α)
    (hs : t.size < 2 ^ 64) (ht : t.transferred < 2 ^ 64) :
    (t.transferred ≤ t.size → t.remaining = t.size - t.transferred) ∧
    (t.size < t.transferred →
      t.remaining = t.size + 2 ^ 64 - t.transferred ∧ t.remaining ≠ 0) := by
  constructor
  · intro hle
    exact sub64_of_le hle hs
  · intro hlt
    exact sub64_of_lt hlt ht

/-- Witness for `C2_remaining_amended` at the concrete handle `sz1024`
(size 1024, 1 byte transferred). -/
theorem C2_remaining_amended_witness :
    sz1024.remaining = sz1024.size - sz1024.transferred :=
  (C2_remaining_amended sz1024 (by norm_num [sz1024])
    (by norm_num [sz1024, tr1at0, SizedTransfer.transferred, Transfer.transferred])).1
    (by norm_num [sz1024, tr1at0, SizedTransfer.transferred, Transfer.transferred])

/-- Claim C3 names a real code bug: `fraction_transferred()` promises "a
fraction between 0.0 and 1.0", but with declared size 0 the unguarded float
division returns NaN (nothing transferred) or `+Inf` (some bytes
transferred) instead of a defined finite sentinel. -/
theorem C3_fraction_zero_size_bug :
    sz0tr0.fraction_transferred = F64.nan ∧ sz0tr1.fraction_transferred = F64.inf := by
  constructor
  · norm_num [sz0tr0, initState, SizedTransfer.fraction_transferred,
      SizedTransfer.transferred, Transfer.transferred, F64.div]
  · norm_num [sz0tr1, tr1at0, SizedTransfer.fraction_transferred,
      SizedTransfer.transferred, Transfer.transferred, F64.div]

/-- Claim C4 is false as stated: at declared size `u64::MAX`, 1 byte
transferred and 2 seconds elapsed, `transferred() > 0` but `eta()` does not
return a duration — the extrapolation `2 * (2^64 - 2)` seconds overflows
`Duration`, so `Duration::from_secs_f64` panics. -/
theorem C4_eta_overflow_counterexample :
    szMAX.transferred ≠ 0 ∧ szMAX.eta = some none := by
  have h : szMAX.transferred ≠ 0 := by
    norm_num [szMAX, SizedTransfer.transferred, Transfer.transferred]
  refine ⟨h, ?_⟩
  rw [eta_eq_of_transferred_ne_zero szMAX h]
  norm_num [szMAX, fromSecsF64, SizedTransfer.remaining, SizedTransfer.running_time,
    SizedTransfer.transferred, Transfer.transferred, Transfer.running_time, sub64]

/-- Claim C4 amended: `eta()` returns `none` exactly when
`transferred() == 0`; when `transferred() > 0` it computes the linear
extrapolation `elapsed_seconds / transferred * remaining()` and returns a
duration equal to it provided the value is below `2^64` seconds
(`Duration`'s range); at `2^64` seconds or more `Duration::from_secs_f64`
panics instead of returning. -/
theorem C4_eta_spec {α : Type} (t : SizedTransfer α) :
    (t.eta = none ↔ t.transferred = 0) ∧
    (t.transferred ≠ 0 →
      (((t.running_time : ℚ) / 1000000000) / (t.transferred : ℚ) *
          ((t.remaining : ℕ) : ℚ) < 2 ^ 64 →
        t.eta = some (some (((t.running_time : ℚ) / 1000000000) /
          (t.transferred : ℚ) * ((t.remaining : ℕ) : ℚ)))) ∧
      (2 ^ 64 ≤ ((t.running_time : ℚ) / 1000000000) / (t.transferred : ℚ) *
          ((t.remaining : ℕ) : ℚ) →
        t.eta = some none)) := by
  constructor
  · rcases eq_or_ne t.transferred 0 with h | h
    · have h0 : t.inner.transferred = 0 := h
      simp [SizedTransfer.eta, SizedTransfer.transferred, h0]
    · rw [eta_eq_of_transferred_ne_zero t h]
      simp [h]
  · intro h
    have hnn : 0 ≤ ((t.running_time : ℚ) / 1000000000) / (t.transferred : ℚ) *
        ((t.remaining : ℕ) : ℚ) := by positivity
    constructor
    · intro hlt
      rw [eta_eq_of_transferred_ne_zero t h]
      simp [fromSecsF64, hnn, hlt]
    · intro hge
      rw [eta_eq_of_transferred_ne_zero t h]
      simp [fromSecsF64, not_lt.mpr hge]

/-- Witness for `C4_eta_spec` at the concrete handle `sz1024`
(1 byte transferred, extrapolation 0 seconds). -/
theorem C4_eta_spec_witness :
    sz1024.eta = some (some (((sz1024.running_time : ℚ) / 1000000000) /
      (sz1024.transferred : ℚ) * ((sz1024.remaining : ℕ) : ℚ))) :=
  ((C4_eta_spec sz1024).2
    (by norm_num [sz1024, tr1at0, SizedTransfer.transferred, Transfer.transferred])).1
    (by norm_num [sz1024, tr1at0, SizedTransfer.remaining, SizedTransfer.running_time,
      SizedTransfer.transferred, Transfer.transferred, Transfer.running_time, sub64])

/-- Claim C10 is false as stated: the handle `szMAX` satisfies the claim's
hypotheses `0 < transferred() ≤ size` (with `size` a `u64`), yet `eta()`
does not return a duration — `Duration::from_secs_f64` panics because the
extrapolation overflows `Duration`. -/
theorem C10_eta_overflow_counterexample :
    0 < szMAX.transferred ∧ szMAX.transferred ≤ szMAX.size ∧
      szMAX.size < 2 ^ 64 ∧ szMAX.eta = some none := by
  have h : szMAX.transferred ≠ 0 := by
    norm_num [szMAX, SizedTransfer.transferred, Transfer.transferred]
  refine ⟨by omega, ?_, by norm_num [szMAX], ?_⟩
  · norm_num [szMAX, SizedTransfer.transferred, Transfer.transferred]
  · rw [eta_eq_of_transferred_ne_zero szMAX h]
    norm_num [szMAX, fromSecsF64, SizedTransfer.remaining, SizedTransfer.running_time,
      SizedTransfer.transferred, Transfer.transferred, Transfer.running_time, sub64]

/-- Claim C10 amended: whenever `0 < transferred() ≤ size` (with `size` a
`u64`) and the extrapolation
`elapsed_seconds / transferred * (size - transferred)` is below `2^64`
seconds, `eta()` returns that duration without panicking: the hypothesis
`transferred() ≤ size` keeps the internal `size - transferred` from
underflowing, and the bound on the extrapolation is additionally required
because `Duration::from_secs_f64` panics when the value overflows
`Duration`. -/
theorem C10_eta_no_underflow {α : Type} (t : SizedTransfer α)
    (h0 : 0 < t.transferred) (h1 : t.transferred ≤ t.size) (hs : t.size < 2 ^ 64)
    (hb : ((t.running_time : ℚ) / 1000000000) / (t.transferred : ℚ) *
      (((t.size - t.transferred : ℕ)) : ℚ) < 2 ^ 64) :
    t.eta = some (some (((t.running_time : ℚ) / 1000000000) /
      (t.transferred : ℚ) * (((t.size - t.transferred : ℕ)) : ℚ))) := by
  have h : t.transferred ≠ 0 := by omega
  have hrem : t.remaining = t.size - t.transferred := by
    rw [remaining_def]
    exact sub64_of_le h1 hs
  have hnn : 0 ≤ ((t.running_time : ℚ) / 1000000000) / (t.transferred : ℚ) *
      (((t.size - t.transferred : ℕ)) : ℚ) := by positivity
  rw [eta_eq_of_transferred_ne_zero t h, hrem]
  simp [fromSecsF64, hnn, hb]

/-- Witness for `C10_eta_no_underflow` at the concrete handle `sz1024`. -/
theorem C10_eta_no_underflow_witness :
    sz1024.eta = some (some (((sz1024.running_time : ℚ) / 1000000000) /
      (sz1024.transferred : ℚ) * (((sz1024.size - sz1024.transferred : ℕ)) : ℚ))) :=
  C10_eta_no_underflow sz1024
    (by norm_num [sz1024, tr1at0, SizedTransfer.transferred, Transfer.transferred])
    (by norm_num [sz1024, tr1at0, SizedTransfer.transferred, Transfer.transferred])
    (by norm_num [sz1024])
    (by norm_num [sz1024, tr1at0, SizedTransfer.running_time, SizedTransfer.transferred,
      Transfer.transferred, Transfer.running_time])

/-- Claim C5: `finish()` returns the recovered pair when the worker's copy
succeeded and the captured I/O error when it failed; and every non-blocking
query (`is_complete`, `transferred`, `running_time`, `speed`) is a function
of the shared counter state and the clock alone — two handles that agree on
those agree on every query whatever their worker outcome, so errors are
never surfaced through the queries. -/
theorem C5_finish_outcomes {α : Type} :
    (∀ (p : α) (n : ℕ) (s : TransferState),
      (Transfer.mk n s (WorkerExit.normal (Except.ok p))).finish = some (Except.ok p)) ∧
    (∀ (e : IoError) (n : ℕ) (s : TransferState),
      (Transfer.mk n s (WorkerExit.normal (Except.error e)) : Transfer α).finish
        = some (Except.error e)) ∧
    (∀ (t u : Transfer α), t.state = u.state → t.elapsedNanos = u.elapsedNanos →
      t.is_complete = u.is_complete ∧ t.transferred = u.transferred ∧
        t.running_time = u.running_time ∧ t.speed = u.speed) := by
  refine ⟨fun p n s => rfl, fun e n s => rfl, ?_⟩
  intro t u h1 h2
  refine ⟨?_, ?_, ?_, ?_⟩ <;>
    simp [Transfer.is_complete, Transfer.transferred, Transfer.running_time,
      Transfer.speed, asSecsF64, h1, h2]

/-- Witness for `C5_finish_outcomes`: two concrete handles that agree on the
counter state and clock but hold different worker outcomes (success versus
I/O error) answer every query identically. -/
theorem C5_finish_outcomes_witness :
    tr1at0.is_complete = tr1at0err.is_complete ∧
      tr1at0.transferred = tr1at0err.transferred ∧
      tr1at0.running_time = tr1at0err.running_time ∧
      tr1at0.speed = tr1at0err.speed :=
  (C5_finish_outcomes (α := Unit)).2.2 tr1at0 tr1at0err rfl rfl

/-- After the worker's updates, ending in the unconditional
`complete.store(true)`, the completion flag is set. -/
theorem runEvents_markComplete (s : TransferState) (es : List WEvent) :
    (runEvents s (es ++ [WEvent.markComplete])).complete = true := by
  simp [runEvents, List.foldl_append, applyEvent]

/-- Claim C6: the worker sets the completion flag unconditionally — for
every chunk sequence and every `io::copy` outcome the final shared state has
`complete = true`, so `is_complete()` eventually reads true; and the final
shared state does not depend on the outcome at all, so observing the flag
(or the counter) never reveals whether the copy succeeded. -/
theorem C6_complete_unconditional {α : Type} :
    (∀ (chunks : List ℕ) (copyRes : Except IoError ℕ) (pair : α)
      (n : ℕ) (ex : WorkerExit α),
      (Transfer.mk n (runWorker chunks copyRes pair).1 ex).is_complete = true) ∧
    (∀ (chunks : List ℕ) (r₁ r₂ : Except IoError ℕ) (p₁ p₂ : α),
      (runWorker chunks r₁ p₁).1 = (runWorker chunks r₂ p₂).1) := by
  constructor
  · intro chunks copyRes pair n ex
    simpa [Transfer.is_complete, runWorker, workerEvents]
      using runEvents_markComplete initState (chunks.map WEvent.publish)
  · intro chunks r₁ r₂ p₁ p₂
    rfl

/-- Claim C7: `finish()` (`join().unwrap()`) yields no value exactly when
the worker panicked — the caller sees the propagated panic, a fatal
condition distinguishable from every normal outcome; an abnormal worker
termination is never silently converted into a success or an I/O error. -/
theorem C7_finish_panic_distinguishable {α : Type} :
    ∀ (n : ℕ) (s : TransferState) (x : WorkerExit α),
      (Transfer.mk n s x).finish = none ↔ x = WorkerExit.panicked := by
  intro n s x
  cases x <;> simp [Transfer.finish]

/-- Witness for `C7_finish_panic_distinguishable` at a concrete panicked
worker. -/
theorem C7_finish_panic_witness :
    (Transfer.mk 0 initState (WorkerExit.panicked : WorkerExit Unit)).finish = none :=
  (C7_finish_panic_distinguishable 0 initState WorkerExit.panicked).mpr rfl

/-- The counter never decreases under a sequence of worker updates, as long
as the running total stays inside the `u64` range (so `fetch_add` does not
wrap). -/
theorem runEvents_mono (es : List WEvent) :
    ∀ s : TransferState, s.transferred + (es.map eventDelta).sum < 2 ^ 64 →
      s.transferred ≤ (runEvents s es).transferred := by
  induction es with
  | nil => intro s h; simp [runEvents]
  | cons e es ih =>
    intro s h
    have hrw : runEvents s (e :: es) = runEvents (applyEvent s e) es := rfl
    rw [hrw]
    cases e with
    | publish b =>
      have hsum : ((WEvent.publish b :: es).map eventDelta).sum
          = b + (es.map eventDelta).sum := by simp [eventDelta]
      rw [hsum] at h
      have hb : s.transferred + b < 2 ^ 64 := by
        have hsle : 0 ≤ (es.map eventDelta).sum := Nat.zero_le _
        omega
      have htr : (applyEvent s (WEvent.publish b)).transferred = s.transferred + b := by
        show (s.transferred + b) % 2 ^ 64 = s.transferred + b
        exact Nat.mod_eq_of_lt hb
      have hrec := ih (applyEvent s (WEvent.publish b)) (by rw [htr]; omega)
      rw [htr] at hrec
      omega
    | markComplete =>
      have htr : (applyEvent s WEvent.markComplete).transferred = s.transferred := rfl
      have hrec := ih (applyEvent s WEvent.markComplete)
        (by rw [htr]; simpa [eventDelta] using h)
      rw [htr] at hrec
      exact hrec

/-- Once the completion flag is true it stays true under every further
worker update (nothing ever stores `false`). -/
theorem runEvents_complete_mono (es : List WEvent) :
    ∀ s : TransferState, s.complete = true → (runEvents s es).complete = true := by
  induction es with
  | nil => intro s h; simpa [runEvents] using h
  | cons e es ih =>
    intro s h
    have hrw : runEvents s (e :: es) = runEvents (applyEvent s e) es := rfl
    rw [hrw]
    apply ih
    cases e <;> simp [applyEvent, h]

/-- The completion flags an observer can read along the worker's whole
update sequence: false at every state before the final `markComplete`, true
after it — a single false-to-true transition. -/
theorem statesAlong_worker_complete (chunks : List ℕ) :
    ∀ s : TransferState, s.complete = false →
      (statesAlong s (chunks.map WEvent.publish ++ [WEvent.markComplete])).map
          TransferState.complete
        = List.replicate (chunks.length + 1) false ++ [true] := by
  induction chunks with
  | nil =>
    intro s h
    simp [statesAlong, applyEvent, h]
  | cons c cs ih =>
    intro s h
    have hrw : (c :: cs).map WEvent.publish ++ [WEvent.markComplete]
        = WEvent.publish c :: (cs.map WEvent.publish ++ [WEvent.markComplete]) := rfl
    rw [hrw]
    have h2 : (applyEvent s (WEvent.publish c)).complete = false := by
      simpa [applyEvent] using h
    simp [statesAlong, ih _ h2, h, List.replicate_succ]

/-- Claim C8: invariants of the shared progress state.  The counter starts
at 0 and the flag starts false; the counter never decreases under the
worker's updates (within the `u64` range), so `transferred()` is monotone
across repeated polls; the flag, once true, is never reset; and along the
worker's full update sequence the flag is false at every observation point
until the single `markComplete`, after which it is true — it transitions
from false to true exactly once. -/
theorem C8_counter_invariants :
    initState.transferred = 0 ∧ initState.complete = false ∧
    (∀ (s : TransferState) (es : List WEvent),
      s.transferred + (es.map eventDelta).sum < 2 ^ 64 →
      s.transferred ≤ (runEvents s es).transferred) ∧
    (∀ (s : TransferState) (es : List WEvent),
      s.complete = true → (runEvents s es).complete = true) ∧
    (∀ chunks : List ℕ,
      (statesAlong initState (workerEvents chunks)).map TransferState.complete
        = List.replicate (chunks.length + 1) false ++ [true]) :=
  ⟨rfl, rfl, fun s es h => runEvents_mono es s h,
    fun s es h => runEvents_complete_mono es s h,
    fun chunks => statesAlong_worker_complete chunks initState rfl⟩

/-- Witness for `C8_counter_invariants`: monotonicity applied to the
concrete update sequence `publish 3; markComplete` from the initial
state. -/
theorem C8_counter_invariants_witness :
    initState.transferred
      ≤ (runEvents initState [WEvent.publish 3, WEvent.markComplete]).transferred :=
  C8_counter_invariants.2.2.1 initState [WEvent.publish 3, WEvent.markComplete]
    (by decide)
